import Mathlib

/-!
Verification of the kbase-security-dashboard ETL pipeline against its
natural-language specification.

The Python modules under `src/kbase/_security_dashboard/` are shallowly
embedded: pure computations become Lean functions, the postgres tables
become explicit lists of row structures, `INSERT ... ON CONFLICT DO NOTHING`
becomes a guarded append, and code that can raise becomes `Except`.
Network fetches are abstracted to the already-fetched page data
(lists of records), matching how every collector consumes them.
-/

namespace SecDash

/-! Python string primitives used by the embedded code.  Python's
`str.lower` / `str.upper` are modelled character-wise for the ASCII range,
which covers every string the dashboard manipulates (severity names,
branch names, PR titles, image tags). -/

/-- Model of Python `str.lower` (ASCII): map `Char.toLower` over the characters. -/
def pyLower (s : String) : String := ⟨s.data.map Char.toLower⟩

/-- Model of Python `str.upper` (ASCII): map `Char.toUpper` over the characters. -/
def pyUpper (s : String) : String := ⟨s.data.map Char.toUpper⟩

/-- Model of Python `str.startswith`: the characters of `pre` are a prefix
of the characters of `s`. -/
def pyStartswith (s pre : String) : Bool := pre.data.isPrefixOf s.data

/-- Semantics of one SQL `INSERT ... ON CONFLICT (key) DO NOTHING` row:
append the row unless some stored row has the same composite key. -/
def insert_ignore {α κ : Type} [DecidableEq κ] (key : α → κ) (tbl : List α) (r : α) :
    List α :=
  if tbl.any (fun y => decide (key y = key r)) then tbl else tbl ++ [r]

/-! ## vulnerabilities.py — severity normalization and GitHub alert counting -/

namespace vulnerabilities

/-- Embeds `_SEVERITY_MAP` from vulnerabilities.py. -/
def SEVERITY_MAP : List (String × String) :=
  [("critical", "critical"), ("high", "high"), ("medium", "medium"),
   ("moderate", "medium"), ("low", "low")]

/-- Embeds `_IGNORE_SEVERITY` from vulnerabilities.py. -/
def IGNORE_SEVERITY : List String := ["note"]

/-- Embeds `_get_severity` from vulnerabilities.py.  Python's `return None`
for ignored severities is `.ok none`; `raise ValueError` is `.error`. -/
def get_severity (severity : String) : Except String (Option String) :=
  if severity ∈ IGNORE_SEVERITY then .ok none
  else
    match SEVERITY_MAP.lookup (pyLower severity) with
    | none => .error ("unknown severity: " ++ severity)
    | some v => .ok (some v)

/-- Count structure for the canonical severities, the codomain of the
`defaultdict(int)` severity tallies in `_fetch_dependabot_alerts` and
`_fetch_code_scanning_alerts` (only the four canonical keys ever occur,
since `_get_severity` produces only those). -/
structure SevCounts where
  critical : Nat := 0
  high : Nat := 0
  medium : Nat := 0
  low : Nat := 0
deriving DecidableEq, Repr

/-- `severity_counts[sev] += 1` for a canonical severity name. -/
def bumpSev (c : SevCounts) (v : String) : SevCounts :=
  if v = "critical" then { c with critical := c.critical + 1 }
  else if v = "high" then { c with high := c.high + 1 }
  else if v = "medium" then { c with medium := c.medium + 1 }
  else if v = "low" then { c with low := c.low + 1 }
  else c

/-- Embeds the alert-counting loop shared by `_fetch_dependabot_alerts` and
`_fetch_code_scanning_alerts`: each alert's severity string is lowercased
(`.lower()` at the extraction site), then passed to `_get_severity`; a `None`
result is skipped, otherwise the canonical bucket is incremented.  A raised
`ValueError` aborts the whole fetch. -/
def count_alert_severities : List String → SevCounts → Except String SevCounts
  | [], counts => .ok counts
  | s :: rest, counts =>
    match get_severity (pyLower s) with
    | .error m => .error m
    | .ok none => count_alert_severities rest counts
    | .ok (some v) => count_alert_severities rest (bumpSev counts v)

/-- The observable outcome of one `_get_severity` call, quotienting away
the text of the raised error: a canonical level, the ignored marker, or a
failure. -/
inductive SevOutcome
  | canonical (v : String)
  | ignored
  | failed
deriving DecidableEq, Repr

/-- View of a `_get_severity` result as its observable outcome. -/
def outcome : Except String (Option String) → SevOutcome
  | .ok (some v) => .canonical v
  | .ok none => .ignored
  | .error _ => .failed

end vulnerabilities

/-! ## trivy_scanner.py — container image scan severity counting -/

namespace trivy_scanner

/-- Embeds `TrivyScanResult` from trivy_scanner.py. -/
structure TrivyScanResult where
  critical : Nat
  high : Nat
  medium : Nat
  low : Nat
deriving DecidableEq, Repr

/-- One entry of a result's `"Vulnerabilities"` list; only the
`"Severity"` field (defaulting to `""`) is consumed. -/
structure Vulnerability where
  Severity : String
deriving DecidableEq, Repr

/-- One entry of the parsed Trivy JSON `"Results"` list; `"Vulnerabilities"`
may be null in the JSON, which `or []` turns into the empty list. -/
structure ResultEntry where
  Vulnerabilities : List Vulnerability
deriving DecidableEq, Repr

/-- The `counts[severity] += 1` step guarded by `if severity in counts`:
severities outside the four fixed keys leave the counts unchanged. -/
def bumpCount (counts : TrivyScanResult) (severity : String) : TrivyScanResult :=
  if severity = "CRITICAL" then { counts with critical := counts.critical + 1 }
  else if severity = "HIGH" then { counts with high := counts.high + 1 }
  else if severity = "MEDIUM" then { counts with medium := counts.medium + 1 }
  else if severity = "LOW" then { counts with low := counts.low + 1 }
  else counts

/-- Embeds the severity-counting phase of `scan_container_image` from
trivy_scanner.py, applied to the parsed JSON `"Results"` data.  The
subprocess invocation and JSON parsing are out of scope; the counting loop
itself contains no `raise`, which the `Except` codomain makes explicit. -/
def scan_container_image (results : List ResultEntry) : Except String TrivyScanResult :=
  .ok (results.foldl
    (fun counts entry =>
      entry.Vulnerabilities.foldl
        (fun counts vuln => bumpCount counts (pyUpper vuln.Severity)) counts)
    ⟨0, 0, 0, 0⟩)

end trivy_scanner

/-! ## dependabot.py — open dependency-update PR counting -/

namespace dependabot

/-- The fields of a GitHub pull-request object consumed by dependabot.py:
`pr["user"]["login"]` and `pr["title"]`. -/
structure PR where
  user_login : String
  title : String
deriving DecidableEq, Repr

/-- Embeds `DependabotSnapshot` from dependabot.py. -/
structure DependabotSnapshot where
  owner_org : String
  repo : String
  total_prs : Nat
  total_dependencies : Nat
  grouped_prs : Nat
  single_prs : Nat
deriving DecidableEq, Repr

/-- Embeds `_is_dependabot_pr` from dependabot.py. -/
def is_dependabot_pr (pr : PR) : Bool :=
  pr.user_login == "dependabot[bot]" || pr.user_login == "dependabot-preview[bot]"

/-- Case-insensitive match of a literal all-lowercase pattern against the
head of `cs` (how `re.IGNORECASE` treats the literal parts of
`with (\d+) updates?`); returns the remaining characters on success. -/
def stripLiteralCI : List Char → List Char → Option (List Char)
  | [], cs => some cs
  | _ :: _, [] => none
  | p :: ps, c :: cs => if c.toLower = p then stripLiteralCI ps cs else none

/-- Maximal run of ASCII digits at the head of the list, with the rest
(the greedy `\d+`; since the character after the digits in the pattern is
a space, the maximal run is the unique viable one). -/
def takeDigits : List Char → List Char × List Char
  | [] => ([], [])
  | c :: cs =>
    if c.isDigit then
      let (ds, rest) := takeDigits cs
      (c :: ds, rest)
    else ([], c :: cs)

/-- Python `int` on a nonempty string of ASCII digits. -/
def digitsToNat (ds : List Char) : Nat :=
  ds.foldl (fun n c => n * 10 + (c.toNat - 48)) 0

/-- Attempt to match `with (\d+) updates?` at this exact position:
the literal `"with "`, then one or more digits, then the literal
`" update"` (the trailing `s?` is optional and captures nothing). -/
def matchWithUpdatesAt (cs : List Char) : Option Nat := do
  let rest ← stripLiteralCI "with ".data cs
  let (ds, rest2) := takeDigits rest
  if ds.isEmpty then none
  else
    let _ ← stripLiteralCI " update".data rest2
    some (digitsToNat ds)

/-- Leftmost match of `re.search(r'with (\d+) updates?', title, re.IGNORECASE)`,
returning the captured number. -/
def searchWithUpdates : List Char → Option Nat
  | [] => none
  | c :: rest =>
    match matchWithUpdatesAt (c :: rest) with
    | some n => some n
    | none => searchWithUpdates rest

/-- Embeds `_count_dependencies_in_pr` from dependabot.py: the captured
group count when the grouped-update pattern matches, otherwise 1. -/
def count_dependencies_in_pr (title : String) : Nat :=
  match searchWithUpdates title.data with
  | some n => n
  | none => 1

/-- Embeds the aggregation phase of `get_dependabot_snapshot` from
dependabot.py, applied to the already-fetched list of open PRs. -/
def get_dependabot_snapshot (owner_or_org repo : String) (all_prs : List PR) :
    DependabotSnapshot :=
  let dependabot_prs := all_prs.filter is_dependabot_pr
  let (total_dependencies, grouped_prs, single_prs) :=
    dependabot_prs.foldl
      (fun (acc : Nat × Nat × Nat) pr =>
        let dep_count := count_dependencies_in_pr pr.title
        (acc.1 + dep_count,
         if dep_count > 1 then acc.2.1 + 1 else acc.2.1,
         if dep_count > 1 then acc.2.2 else acc.2.2 + 1))
      (0, 0, 0)
  { owner_org := owner_or_org
    repo := repo
    total_prs := dependabot_prs.length
    total_dependencies := total_dependencies
    grouped_prs := grouped_prs
    single_prs := single_prs }

end dependabot

/-! ## image_util.py — container image tag resolution -/

namespace image_util

/-- Python `min(tags, key=len)` on a nonempty list: the earliest element of
minimal length.  The `[]` case is unreachable at the call site
(`_find_tagged_version` only calls with nonempty `tags`). -/
def minByLen : List String → String
  | [] => ""
  | t :: ts => ts.foldl (fun m x => if x.length < m.length then x else m) t

/-- Embeds `_find_best_tag` from image_util.py: the first tag not starting
with `"latest"` if any, otherwise the shortest tag. -/
def find_best_tag (tags : List String) : String :=
  let non_latest_tags := tags.filter (fun t => !(pyStartswith t "latest"))
  match non_latest_tags with
  | t :: _ => t
  | [] => minByLen tags

end image_util

/-! ## codecov.py — coverage history collection with incremental early exit -/

namespace codecov

/-- The fields of a codecov commit record consumed by `get_coverage_history`.
Timestamps are modelled as integers (datetimes ordered by `<`); the coverage
percentage is only carried through, so it is modelled as an integer too. -/
structure CommitRecord where
  ci_passed : Bool
  state : String
  branch : String
  timestamp : Int
  commitid : String
  coverage : Int
deriving DecidableEq, Repr

/-- Embeds `CommitCoverage` from codecov.py. -/
structure CommitCoverage where
  commit_id : String
  timestamp : Int
  coverage : Int
deriving DecidableEq, Repr

/-- Embeds `_process_commit` from codecov.py.  Python's `not branches` is
true both for `None` and for an empty set, which the match reproduces. -/
def process_commit (commit : CommitRecord) (branches : Option (List String)) : Bool :=
  commit.ci_passed && (commit.state == "complete") &&
    (match branches with
     | none => true
     | some bs => bs.isEmpty || bs.contains commit.branch)

/-- Embeds `CoverageData` from codecov.py.  The `defaultdict(list)` of
per-branch commit lists is represented as the flat list of (branch, commit-coverage) pairs
in append order; `save_coverage` flattens the dict to exactly these rows. -/
structure CoverageData where
  owner_org : String
  repo : String
  coverage : List (String × CommitCoverage)
deriving DecidableEq, Repr

/-- The inner `for r in js["results"]` loop body of `get_coverage_history`:
`.inl` is the early `return` taken when a filtered record is older than
`since` (strict `<` in the source), `.inr` continues to the next page. -/
def processPage (branches : Option (List String)) (since : Option Int) :
    List CommitRecord → List (String × CommitCoverage) →
    List (String × CommitCoverage) ⊕ List (String × CommitCoverage)
  | [], ret => .inr ret
  | r :: rs, ret =>
    if process_commit r branches then
      if (match since with | some s => decide (r.timestamp < s) | none => false) then .inl ret
      else
        processPage branches since rs
          (ret ++ [(r.branch, ⟨r.commitid, r.timestamp, r.coverage⟩)])
    else processPage branches since rs ret

/-- The `while next_url` pagination loop of `get_coverage_history`. -/
def processPages (branches : Option (List String)) (since : Option Int) :
    List (List CommitRecord) → List (String × CommitCoverage) →
    List (String × CommitCoverage)
  | [], ret => ret
  | page :: rest, ret =>
    match processPage branches since page ret with
    | .inl final => final
    | .inr ret2 => processPages branches since rest ret2

/-- Embeds `get_coverage_history` from codecov.py, applied to the fetched
pages of commit records. -/
def get_coverage_history (owner_or_org repo : String)
    (branches : Option (List String)) (since : Option Int)
    (pages : List (List CommitRecord)) : CoverageData :=
  ⟨owner_or_org, repo, processPages branches since pages []⟩

end codecov

/-! ## codecov_load.py — coverage persistence and incremental sync -/

namespace codecov_load

/-- One row of the `coverage_history` table. -/
structure CoverageRow where
  org_user : String
  repo : String
  branch : String
  commit : String
  timestamp : Int
  coverage : Int
deriving DecidableEq, Repr

/-- The composite primary key `(org_user, repo, branch, commit)`. -/
def coverageKey (r : CoverageRow) : String × String × String × String :=
  (r.org_user, r.repo, r.branch, r.commit)

/-- One row of `INSERT ... ON CONFLICT (org_user, repo, branch, commit)
DO NOTHING`: append unless a row with the same key exists. -/
def insertCoverageRow (tbl : List CoverageRow) (r : CoverageRow) : List CoverageRow :=
  insert_ignore coverageKey tbl r

/-- Embeds `save_coverage` from codecov_load.py: flatten the coverage data
to rows and insert them, ignoring unique-key conflicts. -/
def save_coverage (tbl : List CoverageRow) (coverage_data : codecov.CoverageData) :
    List CoverageRow :=
  let rows := coverage_data.coverage.map (fun bc =>
    CoverageRow.mk coverage_data.owner_org coverage_data.repo bc.1
      bc.2.commit_id bc.2.timestamp bc.2.coverage)
  rows.foldl insertCoverageRow tbl

/-- SQL `MAX` over a list of timestamps, `none` when no rows match. -/
def sqlMax : List Int → Option Int
  | [] => none
  | t :: ts =>
    match sqlMax ts with
    | none => some t
    | some m => some (if t ≤ m then m else t)

/-- Embeds `_get_last_sync_timestamp` from codecov_load.py: `SELECT
MAX(timestamp)` over the repo's rows, restricted to `branches` when that
argument is truthy (non-`None` and nonempty, per Python `if branches:`). -/
def get_last_sync_timestamp (tbl : List CoverageRow) (owner_org repo : String)
    (branches : Option (List String)) : Option Int :=
  let matching := tbl.filter (fun r =>
    r.org_user == owner_org && r.repo == repo &&
      (match branches with
       | some bs => bs.isEmpty || bs.contains r.branch
       | none => true))
  sqlMax (matching.map (fun r => r.timestamp))

/-- Embeds `sync_coverage_data` from codecov_load.py, applied to the table
state and the pages the coverage API returns. -/
def sync_coverage_data (tbl : List CoverageRow) (owner_org repo : String)
    (branches : Option (List String)) (force_full_sync : Bool)
    (pages : List (List codecov.CommitRecord)) : List CoverageRow :=
  let since := if force_full_sync then none
    else get_last_sync_timestamp tbl owner_org repo branches
  let coverage_data := codecov.get_coverage_history owner_org repo branches since pages
  save_coverage tbl coverage_data

end codecov_load

/-! ## repo_metadata.py — repository metadata upsert -/

namespace repo_metadata

/-- One row of the `repo_metadata` table. -/
structure MetaRow where
  org_user : String
  repo : String
  type : String
  main_branch : String
  dev_branch : String
  created_at : Int
  updated_at : Int
deriving DecidableEq, Repr

/-- The `DO UPDATE` arm of the upsert applied to one stored row: rows with
the conflicting `(org_user, repo)` key take the excluded descriptive values
and `updated_at` follows the SQL `CASE` — `NOW()` when `type`,
`main_branch` or `dev_branch` differs from the stored row, the stored
`updated_at` otherwise; other rows are untouched. -/
def update_row (org repo ty mb db : String) (now : Int) (r : MetaRow) : MetaRow :=
  if r.org_user == org && r.repo == repo then
    { r with
      type := ty
      main_branch := mb
      dev_branch := db
      updated_at :=
        if r.type ≠ ty ∨ r.main_branch ≠ mb ∨ r.dev_branch ≠ db then now
        else r.updated_at }
  else r

/-- Embeds one execution of the `INSERT ... ON CONFLICT (org_user, repo)
DO UPDATE` statement of `upsert_repo_metadata`, with `NOW()` passed in as
`now`. -/
def upsert_one (tbl : List MetaRow) (org repo ty mb db : String) (now : Int) :
    List MetaRow :=
  if tbl.any (fun r => r.org_user == org && r.repo == repo) then
    tbl.map (update_row org repo ty mb db now)
  else tbl ++ [⟨org, repo, ty, mb, db, now, now⟩]

/-- Embeds the loop of `upsert_repo_metadata` over the configured repo list,
one `(org, repo, type, main_branch, dev_branch)` tuple per config entry. -/
def upsert_repo_metadata (tbl : List MetaRow)
    (repos : List (String × String × String × String × String)) (now : Int) :
    List MetaRow :=
  repos.foldl (fun t rc => upsert_one t rc.1 rc.2.1 rc.2.2.1 rc.2.2.2.1 rc.2.2.2.2 now) tbl

end repo_metadata

/-! ## vulnerabilities_load.py and trivy_load.py — snapshot persistence -/

namespace vulnerabilities_load

/-- One row of the `vulnerability_snapshots` table. -/
structure VulnRow where
  org_user : String
  repo : String
  timestamp : Int
  critical : Nat
  high : Nat
  medium : Nat
  low : Nat
deriving DecidableEq, Repr

/-- The composite primary key `(org_user, repo, timestamp)`. -/
def vulnKey (r : VulnRow) : String × String × Int := (r.org_user, r.repo, r.timestamp)

/-- Embeds `save_snapshot` from vulnerabilities_load.py: `INSERT ... ON
CONFLICT (org_user, repo, timestamp) DO NOTHING`, at the level of the row
the statement binds. -/
def save_snapshot (tbl : List VulnRow) (row : VulnRow) : List VulnRow :=
  insert_ignore vulnKey tbl row

end vulnerabilities_load

namespace trivy_load

/-- Embeds `TrivySnapshot` from trivy.py (the image-tag list plus severity
counts for one branch). -/
structure TrivySnapshot where
  owner_org : String
  repo : String
  branch : String
  image_tags : List String
  critical : Nat
  high : Nat
  medium : Nat
  low : Nat
deriving DecidableEq, Repr

/-- One row of the `trivy_scans` table. -/
structure TrivyRow where
  org_user : String
  repo : String
  branch : String
  timestamp : Int
  image_tags : List String
  critical : Nat
  high : Nat
  medium : Nat
  low : Nat
deriving DecidableEq, Repr

/-- The composite primary key `(org_user, repo, branch, timestamp)`. -/
def trivyKey (r : TrivyRow) : String × String × String × Int :=
  (r.org_user, r.repo, r.branch, r.timestamp)

/-- The row the `INSERT` of trivy_load.py's `save_snapshot` binds: snapshot
fields plus the caller-supplied `snapshot_date` as the timestamp. -/
def rowOf (snapshot : TrivySnapshot) (snapshot_date : Int) : TrivyRow :=
  ⟨snapshot.owner_org, snapshot.repo, snapshot.branch, snapshot_date,
   snapshot.image_tags, snapshot.critical, snapshot.high, snapshot.medium,
   snapshot.low⟩

/-- Embeds `save_snapshot` from trivy_load.py: the row is built from the
snapshot plus the caller-supplied `snapshot_date`, then inserted with
`ON CONFLICT (org_user, repo, branch, timestamp) DO NOTHING`. -/
def save_snapshot (tbl : List TrivyRow) (snapshot : TrivySnapshot)
    (snapshot_date : Int) : List TrivyRow :=
  insert_ignore trivyKey tbl (rowOf snapshot snapshot_date)

end trivy_load

/-! ## Python call binding — the arity facts behind the orchestrator's
`take_snapshot` calls.  `process_repos` calls each loader's `take_snapshot`
with positional arguments; binding fails with a `TypeError` when the count
does not fit the signature. -/

namespace pycall

/-- A Python function signature: total parameter count and how many
trailing parameters carry defaults. -/
structure PySignature where
  params : Nat
  defaults : Nat
deriving DecidableEq, Repr

/-- Python positional-argument binding: too many arguments, or fewer than
the number of non-default parameters, raises `TypeError`. -/
def call_with_positional (sig : PySignature) (args : Nat) : Except String Unit :=
  if args > sig.params then .error "TypeError: too many positional arguments"
  else if args < sig.params - sig.defaults then .error "TypeError: missing required arguments"
  else .ok ()

/-- `dependabot_load.take_snapshot(conn, owner_org, repo, github_token=None)`. -/
def dependabot_load_take_snapshot_sig : PySignature := ⟨4, 1⟩

/-- `vulnerabilities_load.take_snapshot(conn, owner_org, repo, github_token)`. -/
def vulnerabilities_load_take_snapshot_sig : PySignature := ⟨4, 0⟩

/-- `trivy_load.take_snapshot(conn, owner_org, repo, branches, snapshot_date,
github_token)`. -/
def trivy_load_take_snapshot_sig : PySignature := ⟨6, 0⟩

/-- Argument count at the `process_repos` call site
`dependabot_load.take_snapshot(conn, org, repo, snapshot_date, github_token)`. -/
def dependabot_call_args : Nat := 5

/-- Argument count at the `process_repos` call site
`vulnerabilities_load.take_snapshot(conn, org, repo, snapshot_date, github_token)`. -/
def vulnerabilities_call_args : Nat := 5

/-- Argument count at the `process_repos` call site
`trivy_load.take_snapshot(conn, org, repo, branches, snapshot_date, github_token)`. -/
def trivy_call_args : Nat := 6

end pycall

/-! ## load_all.py — the per-repository orchestration loop -/

namespace load_all

/-- The dynamic value of a repo entry's `test_workflows` key: a string, a
list of strings, or a value of any other type. -/
inductive TWVal
  | str (s : String)
  | list (l : List String)
  | other
deriving DecidableEq, Repr

/-- A repo entry as configured (before branch-name defaulting). -/
structure RepoConfigIn where
  org : String
  repo : String
  main_branch : Option String := none
  dev_branch : Option String := none
  test_workflows : Option TWVal := none
deriving DecidableEq, Repr

/-- A repo entry after the defaulting loop at the top of `process_repos`. -/
structure RepoConfig where
  org : String
  repo : String
  main_branch : String
  dev_branch : String
  test_workflows : Option TWVal
deriving DecidableEq, Repr

/-- The defaulting loop: `main_branch` defaults to `"main"`, `dev_branch`
to `"develop"`. -/
def normalize (r : RepoConfigIn) : RepoConfig :=
  ⟨r.org, r.repo, r.main_branch.getD "main", r.dev_branch.getD "develop",
   r.test_workflows⟩

/-- The workflow filter derived from `test_workflows`: `None` selects the
default regex, a string a regex filter, a list an exact-name set. -/
inductive WorkflowFilter
  | dflt
  | regex (s : String)
  | names (l : List String)
deriving DecidableEq, Repr

/-- The type dispatch on `test_workflows` in `process_repos`; `none` is the
`else` branch that logs an error and `continue`s to the next repo. -/
def resolve_workflow_filter : Option TWVal → Option WorkflowFilter
  | none => some .dflt
  | some (.str s) => some (.regex s)
  | some (.list l) => some (.names l)
  | some .other => none

/-- The five collection steps run inside the per-repo `try` block, in
source order. -/
inductive Step
  | coverage
  | test_status
  | dependabot_pr
  | vulnerability
  | trivy
deriving DecidableEq, Repr

/-- An environment giving the outcome of each collection step for each
repo: `.ok` when the step's network calls and writes succeed, `.error`
when it raises. -/
def StepEnv : Type := RepoConfig → Step → Except String Unit

/-- The order of the five steps in the `try` block of `process_repos`. -/
def step_order : List Step :=
  [.coverage, .test_status, .dependabot_pr, .vulnerability, .trivy]

/-- Run the steps of one repository in order, recording which executed
(tagged with the repo's org and name); the first raising step ends the
block with its exception. -/
def run_steps (env : StepEnv) (rc : RepoConfig) :
    List Step → List (String × String × Step) × Option String
  | [] => ([], none)
  | s :: rest =>
    match env rc s with
    | .error e => ([(rc.org, rc.repo, s)], some e)
    | .ok _ =>
      let (tr, err) := run_steps env rc rest
      ((rc.org, rc.repo, s) :: tr, err)

/-- The `for repo_config in repos` loop of `process_repos`: a repo whose
`test_workflows` has an invalid type is skipped (`continue`); otherwise its
five steps run and any exception is logged and re-raised, aborting the
remaining repos. -/
def process_loop (env : StepEnv) :
    List RepoConfig → List (String × String × Step) × Option String
  | [] => ([], none)
  | rc :: rest =>
    match resolve_workflow_filter rc.test_workflows with
    | none => process_loop env rest
    | some _ =>
      let (tr, err) := run_steps env rc step_order
      match err with
      | some e => (tr, some e)
      | none =>
        let (tr2, err2) := process_loop env rest
        (tr ++ tr2, err2)

/-- Embeds `process_repos` from load_all.py: normalize branch defaults,
raise `ValueError` on an empty repository list, then run the per-repo loop.
The result is the trace of executed collection steps and the exception that
ended the run, if any.  (The metadata upsert before the loop touches only
`repo_metadata`, modelled separately.) -/
def process_repos (env : StepEnv) (repos : List RepoConfigIn) :
    List (String × String × Step) × Option String :=
  let nrepos := repos.map normalize
  if nrepos.isEmpty then ([], some "No repositories configured")
  else process_loop env nrepos

end load_all

/-! ## service/scheduler.py — run-result recording -/

namespace scheduler

/-- Embeds `ETLResult` from service/scheduler.py. -/
structure ETLResult where
  time_complete : Option Int := none
  exception : Option String := none
deriving DecidableEq, Repr

/-- Embeds `RepoETLScheduler._run`: `process_repos` runs, any exception is
caught and formatted, and `self.result` is replaced wholesale with a new
`ETLResult` carrying the completion time and the failure text (or `None`). -/
def RepoETLScheduler_run (prev : ETLResult) (outcome : Option String) (now : Int) :
    ETLResult :=
  match prev, outcome with
  | _, none => { time_complete := some now, exception := none }
  | _, some e => { time_complete := some now, exception := some e }

end scheduler

/-! ## Supporting lemmas -/

theorem char_toNat_ofNat_valid {n : Nat} (h : n.isValidChar) : (Char.ofNat n).toNat = n := by
  simp [Char.ofNat, h, Char.ofNatAux, Char.toNat]
  rfl

theorem char_toLower_idem (c : Char) : c.toLower.toLower = c.toLower := by
  simp only [Char.toLower]
  by_cases h : c.toNat ≥ 65 ∧ c.toNat ≤ 90
  · rw [if_pos h]
    rw [char_toNat_ofNat_valid (Or.inl (by omega))]
    rw [if_neg (by omega)]
  · rw [if_neg h]; rw [if_neg h]

theorem pyLower_idem (s : String) : pyLower (pyLower s) = pyLower s := by
  unfold pyLower
  apply congrArg
  rw [List.map_map]
  induction s.data with
  | nil => rfl
  | cons c cs ih => simp only [List.map_cons, Function.comp_apply, char_toLower_idem]; rw [ih]

theorem lookup_eq_none_of_not_mem_keys {α β : Type} [BEq α] [LawfulBEq α]
    (l : List (α × β)) (k : α) (h : k ∉ l.map Prod.fst) : l.lookup k = none := by
  induction l with
  | nil => rfl
  | cons p ps ih =>
    simp only [List.map_cons, List.mem_cons] at h
    push_neg at h
    have hb : (k == p.1) = false := by simpa using h.1
    simp only [List.lookup, hb]
    exact ih h.2

theorem lookup_mem_values {α β : Type} [BEq α] [LawfulBEq α]
    {l : List (α × β)} {k : α} {v : β} (h : l.lookup k = some v) :
    v ∈ l.map Prod.snd := by
  induction l with
  | nil => simp [List.lookup] at h
  | cons p ps ih =>
    simp only [List.lookup] at h
    split at h
    · simp only [Option.some.injEq] at h
      simp [h]
    · simp [ih h]

theorem insert_ignore_conflict {α κ : Type} [DecidableEq κ] (key : α → κ)
    (tbl : List α) (r : α) (h : ∃ x ∈ tbl, key x = key r) :
    insert_ignore key tbl r = tbl := by
  unfold insert_ignore
  rw [if_pos (by simpa [List.any_eq_true] using h)]

theorem insert_ignore_fresh {α κ : Type} [DecidableEq κ] (key : α → κ)
    (tbl : List α) (r : α) (h : ¬ ∃ x ∈ tbl, key x = key r) :
    insert_ignore key tbl r = tbl ++ [r] := by
  unfold insert_ignore
  rw [if_neg (by simpa [List.any_eq_true] using h)]

theorem insert_ignore_second_conflict {α κ : Type} [DecidableEq κ] (key : α → κ)
    (tbl : List α) (r r2 : α) (hk : key r2 = key r) :
    insert_ignore key (insert_ignore key tbl r) r2 = insert_ignore key tbl r := by
  by_cases h : ∃ x ∈ tbl, key x = key r
  · rw [insert_ignore_conflict key tbl r h]
    exact insert_ignore_conflict key tbl r2 (by obtain ⟨x, hx, he⟩ := h; exact ⟨x, hx, by rw [he, hk]⟩)
  · rw [insert_ignore_fresh key tbl r h]
    exact insert_ignore_conflict key _ r2 ⟨r, by simp, hk.symm⟩

theorem insert_ignore_fresh_filter {α κ : Type} [DecidableEq κ] (key : α → κ)
    (tbl : List α) (r : α) (h : ¬ ∃ x ∈ tbl, key x = key r) :
    (insert_ignore key tbl r).filter (fun x => decide (key x = key r)) = [r] := by
  rw [insert_ignore_fresh key tbl r h, List.filter_append]
  have h1 : tbl.filter (fun x => decide (key x = key r)) = [] := by
    rw [List.filter_eq_nil_iff]
    intro x hx
    simp only [decide_eq_true_eq]
    exact fun he => h ⟨x, hx, he⟩
  rw [h1, List.nil_append]
  simp

theorem insert_ignore_mem {α κ : Type} [DecidableEq κ] (key : α → κ)
    (tbl : List α) (r x : α) (h : x ∈ insert_ignore key tbl r) :
    x ∈ tbl ∨ x = r := by
  unfold insert_ignore at h
  split at h
  · exact Or.inl h
  · simpa using h

theorem get_severity_unknown_error (s : String)
    (hig : s ∉ vulnerabilities.IGNORE_SEVERITY)
    (hk : pyLower s ∉ vulnerabilities.SEVERITY_MAP.map Prod.fst) :
    vulnerabilities.get_severity s = .error ("unknown severity: " ++ s) := by
  unfold vulnerabilities.get_severity
  rw [if_neg hig, lookup_eq_none_of_not_mem_keys _ _ hk]

theorem count_alert_severities_fails (sevs : List String)
    (counts : vulnerabilities.SevCounts)
    (h : ∃ s ∈ sevs, pyLower s ∉ vulnerabilities.SEVERITY_MAP.map Prod.fst ∧
      pyLower s ∉ vulnerabilities.IGNORE_SEVERITY) :
    ∃ m, vulnerabilities.count_alert_severities sevs counts = .error m := by
  induction sevs generalizing counts with
  | nil => simp at h
  | cons a rest ih =>
    obtain ⟨s, hmem, hk, hig⟩ := h
    unfold vulnerabilities.count_alert_severities
    rcases List.mem_cons.mp hmem with rfl | hmem2
    · have herr : vulnerabilities.get_severity (pyLower s) =
          .error ("unknown severity: " ++ pyLower s) := by
        apply get_severity_unknown_error _ hig
        rw [pyLower_idem]
        exact hk
      rw [herr]
      exact ⟨_, rfl⟩
    · cases hga : vulnerabilities.get_severity (pyLower a) with
      | error m => exact ⟨m, rfl⟩
      | ok o =>
        cases o with
        | none => exact ih _ ⟨s, hmem2, hk, hig⟩
        | some v => exact ih _ ⟨s, hmem2, hk, hig⟩

theorem processPage_since_bound (branches : Option (List String)) (T : Int)
    (page : List codecov.CommitRecord) :
    ∀ acc, ∃ extra, (∀ x ∈ extra, T ≤ x.2.timestamp) ∧
      (codecov.processPage branches (some T) page acc = .inl (acc ++ extra) ∨
       codecov.processPage branches (some T) page acc = .inr (acc ++ extra)) := by
  induction page with
  | nil =>
    intro acc
    exact ⟨[], by simp, .inr (by simp [codecov.processPage])⟩
  | cons r rs ih =>
    intro acc
    by_cases hp : codecov.process_commit r branches = true
    · by_cases hlt : r.timestamp < T
      · refine ⟨[], by simp, .inl ?_⟩
        simp [codecov.processPage, hp, hlt]
      · obtain ⟨extra, hx, hor⟩ :=
          ih (acc ++ [(r.branch, ⟨r.commitid, r.timestamp, r.coverage⟩)])
        have hstep : codecov.processPage branches (some T) (r :: rs) acc =
            codecov.processPage branches (some T) rs
              (acc ++ [(r.branch, ⟨r.commitid, r.timestamp, r.coverage⟩)]) := by
          simp [codecov.processPage, hp, hlt]
        refine ⟨(r.branch, ⟨r.commitid, r.timestamp, r.coverage⟩) :: extra, ?_, ?_⟩
        · intro x hx2
          rcases List.mem_cons.mp hx2 with rfl | hx3
          · simpa using le_of_not_lt hlt
          · exact hx x hx3
        · rcases hor with h | h
          · left
            rw [hstep, h, List.append_assoc]
            rfl
          · right
            rw [hstep, h, List.append_assoc]
            rfl
    · obtain ⟨extra, hx, hor⟩ := ih acc
      have hstep : codecov.processPage branches (some T) (r :: rs) acc =
          codecov.processPage branches (some T) rs acc := by
        simp [codecov.processPage, hp]
      rw [hstep]
      exact ⟨extra, hx, hor⟩

theorem processPages_since_bound (branches : Option (List String)) (T : Int)
    (pages : List (List codecov.CommitRecord)) :
    ∀ acc, ∃ extra, (∀ x ∈ extra, T ≤ x.2.timestamp) ∧
      codecov.processPages branches (some T) pages acc = acc ++ extra := by
  induction pages with
  | nil =>
    intro acc
    exact ⟨[], by simp, by simp [codecov.processPages]⟩
  | cons page rest ih =>
    intro acc
    obtain ⟨e1, he1, hor⟩ := processPage_since_bound branches T page acc
    rcases hor with h | h
    · refine ⟨e1, he1, ?_⟩
      simp [codecov.processPages, h]
    · obtain ⟨e2, he2, h2⟩ := ih (acc ++ e1)
      refine ⟨e1 ++ e2, ?_, ?_⟩
      · intro x hx
        rcases List.mem_append.mp hx with h3 | h3
        · exact he1 x h3
        · exact he2 x h3
      · simp [codecov.processPages, h, h2, List.append_assoc]

theorem get_coverage_history_since_bound (o rp : String)
    (branches : Option (List String)) (T : Int)
    (pages : List (List codecov.CommitRecord)) :
    ∀ x ∈ (codecov.get_coverage_history o rp branches (some T) pages).coverage,
      T ≤ x.2.timestamp := by
  intro x hx
  obtain ⟨extra, he, hp⟩ := processPages_since_bound branches T pages []
  simp only [codecov.get_coverage_history] at hx
  rw [hp, List.nil_append] at hx
  exact he x hx

theorem save_coverage_foldl_mem (rows : List codecov_load.CoverageRow) :
    ∀ tbl x, x ∈ rows.foldl codecov_load.insertCoverageRow tbl →
      x ∈ tbl ∨ x ∈ rows := by
  induction rows with
  | nil =>
    intro tbl x h
    exact Or.inl h
  | cons a rest ih =>
    intro tbl x h
    simp only [List.foldl_cons] at h
    rcases ih _ x h with h2 | h2
    · rcases insert_ignore_mem codecov_load.coverageKey tbl a x h2 with h3 | h3
      · exact Or.inl h3
      · exact Or.inr (by simp [h3])
    · exact Or.inr (List.mem_cons_of_mem _ h2)

theorem process_loop_append (env : load_all.StepEnv)
    (pre rest : List load_all.RepoConfig)
    (h : (load_all.process_loop env pre).2 = none) :
    load_all.process_loop env (pre ++ rest) =
      ((load_all.process_loop env pre).1 ++ (load_all.process_loop env rest).1,
       (load_all.process_loop env rest).2) := by
  induction pre with
  | nil => simp [load_all.process_loop]
  | cons rc pre ih =>
    cases hres : load_all.resolve_workflow_filter rc.test_workflows with
    | none =>
      have h2 : (load_all.process_loop env pre).2 = none := by
        simpa [load_all.process_loop, hres] using h
      simpa [load_all.process_loop, hres] using ih h2
    | some w =>
      rcases hrs : load_all.run_steps env rc load_all.step_order with ⟨tr, err⟩
      cases err with
      | some e =>
        exfalso
        simp [load_all.process_loop, hres, hrs] at h
      | none =>
        have h2 : (load_all.process_loop env pre).2 = none := by
          simpa [load_all.process_loop, hres, hrs] using h
        have := ih h2
        simp [load_all.process_loop, hres, hrs, this, List.append_assoc]

theorem process_loop_skip (env : load_all.StepEnv)
    (pre post : List load_all.RepoConfig) (rc : load_all.RepoConfig)
    (hrc : rc.test_workflows = some .other) :
    load_all.process_loop env (pre ++ rc :: post) =
      load_all.process_loop env (pre ++ post) := by
  induction pre with
  | nil => simp [load_all.process_loop, load_all.resolve_workflow_filter, hrc]
  | cons a pre ih =>
    cases hres : load_all.resolve_workflow_filter a.test_workflows with
    | none => simpa [load_all.process_loop, hres] using ih
    | some w =>
      rcases hrs : load_all.run_steps env a load_all.step_order with ⟨tr, err⟩
      cases err with
      | some e => simp [load_all.process_loop, hres, hrs]
      | none => simp [load_all.process_loop, hres, hrs, ih]

/-! ## Claims -/

/-- C1: the spec requires one shared UTC run timestamp per repository,
passed by `process_repos` to every snapshot writer; `process_repos` indeed
passes `snapshot_date`, but `dependabot_load.take_snapshot` and
`vulnerabilities_load.take_snapshot` do not have a timestamp parameter, so
the orchestrator's five-positional-argument calls cannot bind and raise
`TypeError` (only the trivy call binds).  The claim's "accept and store the
shared timestamp" is therefore violated by the code. -/
theorem claim_C1_take_snapshot_call_arity :
    pycall.call_with_positional pycall.dependabot_load_take_snapshot_sig
      pycall.dependabot_call_args = .error "TypeError: too many positional arguments" ∧
    pycall.call_with_positional pycall.vulnerabilities_load_take_snapshot_sig
      pycall.vulnerabilities_call_args = .error "TypeError: too many positional arguments" ∧
    pycall.call_with_positional pycall.trivy_load_take_snapshot_sig
      pycall.trivy_call_args = .ok () :=
  ⟨rfl, rfl, rfl⟩

/-- C2 counterexample: a scan result entry whose severity `"UNKNOWN"` is
outside the recognized set is silently omitted from the counts by
`scan_container_image` — the operation succeeds with all-zero counts
instead of failing as the claim requires. -/
theorem claim_C2_counterexample :
    trivy_scanner.scan_container_image [⟨[⟨"UNKNOWN"⟩]⟩] = .ok ⟨0, 0, 0, 0⟩ ∧
    pyUpper "UNKNOWN" ≠ "CRITICAL" ∧ pyUpper "UNKNOWN" ≠ "HIGH" ∧
    pyUpper "UNKNOWN" ≠ "MEDIUM" ∧ pyUpper "UNKNOWN" ≠ "LOW" :=
  ⟨rfl, by decide, by decide, by decide, by decide⟩

/-- C2 amended: the GitHub-alert collectors do treat an unrecognized,
non-ignored severity as a hard error — `_get_severity` raises and the
counting loop propagates the failure — but the container-image scan path
never fails on severities: `scan_container_image` silently drops any
severity outside CRITICAL/HIGH/MEDIUM/LOW (the `trivy` invocation is
already restricted to those four via `--severity`). -/
theorem claim_C2_amended :
    (∀ s, s ∉ vulnerabilities.IGNORE_SEVERITY →
        pyLower s ∉ vulnerabilities.SEVERITY_MAP.map Prod.fst →
        vulnerabilities.get_severity s = .error ("unknown severity: " ++ s)) ∧
    (∀ sevs counts,
      (∃ s ∈ sevs, pyLower s ∉ vulnerabilities.SEVERITY_MAP.map Prod.fst ∧
        pyLower s ∉ vulnerabilities.IGNORE_SEVERITY) →
      ∃ m, vulnerabilities.count_alert_severities sevs counts = .error m) ∧
    (∀ results, ∃ c, trivy_scanner.scan_container_image results = .ok c) :=
  ⟨fun s h1 h2 => get_severity_unknown_error s h1 h2,
   fun sevs counts h => count_alert_severities_fails sevs counts h,
   fun _ => ⟨_, rfl⟩⟩

/-- C2 amended, witnessed at concrete inputs: the alert normalizer fails on
`"BOGUS"`, the alert-counting loop fails on a list containing `"wibble"`,
and the scan counting never fails. -/
theorem claim_C2_amended_witness :
    vulnerabilities.get_severity "BOGUS" = .error "unknown severity: BOGUS" ∧
    (∃ m, vulnerabilities.count_alert_severities ["high", "wibble"] {} = .error m) ∧
    (∃ c, trivy_scanner.scan_container_image [] = .ok c) :=
  ⟨claim_C2_amended.1 "BOGUS" (by decide) (by decide),
   claim_C2_amended.2.1 ["high", "wibble"] {} ⟨"wibble", by decide, by decide, by decide⟩,
   claim_C2_amended.2.2 []⟩

/-- C3 counterexample: case-insensitivity fails on the ignore-set — the
source checks `severity in _IGNORE_SEVERITY` before lowercasing, so
`"NOTE"` raises `ValueError` while its lowercase `"note"` is ignored;
the two outcomes differ. -/
theorem claim_C3_counterexample :
    vulnerabilities.get_severity "NOTE" = .error "unknown severity: NOTE" ∧
    pyLower "NOTE" = "note" ∧
    vulnerabilities.get_severity "note" = .ok none ∧
    vulnerabilities.outcome (vulnerabilities.get_severity "NOTE") ≠
      vulnerabilities.outcome (vulnerabilities.get_severity (pyLower "NOTE")) :=
  ⟨rfl, rfl, rfl, by decide⟩

/-- C3 amended: `_get_severity` always yields one of exactly
critical/high/medium/low, the ignored marker (arising exactly on the
ignore-set), or an unknown-severity error; and it is case-insensitive for
every string
whose lowercase is not in the ignore-set `{"note"}` — for non-lowercase
casings of an ignore-set word the call fails while the lowercase is
ignored (the counterexample). -/
theorem claim_C3_amended :
    (∀ s, (∃ v, vulnerabilities.get_severity s = .ok (some v) ∧
            (v = "critical" ∨ v = "high" ∨ v = "medium" ∨ v = "low")) ∨
          (vulnerabilities.get_severity s = .ok none ∧
            s ∈ vulnerabilities.IGNORE_SEVERITY) ∨
          vulnerabilities.get_severity s = .error ("unknown severity: " ++ s)) ∧
    (∀ s, pyLower s ∉ vulnerabilities.IGNORE_SEVERITY →
      vulnerabilities.outcome (vulnerabilities.get_severity s) =
        vulnerabilities.outcome (vulnerabilities.get_severity (pyLower s))) := by
  constructor
  · intro s
    unfold vulnerabilities.get_severity
    by_cases hig : s ∈ vulnerabilities.IGNORE_SEVERITY
    · right; left
      exact ⟨by rw [if_pos hig], hig⟩
    · rw [if_neg hig]
      cases hlk : vulnerabilities.SEVERITY_MAP.lookup (pyLower s) with
      | none => right; right; rfl
      | some v =>
        left
        refine ⟨v, rfl, ?_⟩
        have hv := lookup_mem_values hlk
        simpa [vulnerabilities.SEVERITY_MAP] using hv
  · intro s h
    have hsig : s ∉ vulnerabilities.IGNORE_SEVERITY := by
      intro hs
      apply h
      simp only [vulnerabilities.IGNORE_SEVERITY, List.mem_singleton] at hs ⊢
      rw [hs]
      rfl
    unfold vulnerabilities.get_severity
    rw [if_neg hsig, if_neg h, pyLower_idem]
    cases vulnerabilities.SEVERITY_MAP.lookup (pyLower s) <;> rfl

/-- C3 amended, witnessed: `"CRITICAL"` and its lowercase produce the same
outcome. -/
theorem claim_C3_amended_witness :
    vulnerabilities.outcome (vulnerabilities.get_severity "CRITICAL") =
      vulnerabilities.outcome (vulnerabilities.get_severity (pyLower "CRITICAL")) :=
  claim_C3_amended.2 "CRITICAL" (by decide)

/-- C9 counterexample: `_find_best_tag` skips every tag *starting with*
`"latest"`, not only the exact tag `"latest"`: for `["latest-foo", "abc"]`
the first tag different from `"latest"` is `"latest-foo"`, yet the resolved
tag is `"abc"`. -/
theorem claim_C9_counterexample :
    image_util.find_best_tag ["latest-foo", "abc"] = "abc" ∧
    ("latest-foo" : String) ≠ "latest" :=
  ⟨rfl, by decide⟩

/-- C9 amended: both concrete examples hold, and in general the first tag
not *starting with* `"latest"` is resolved (when all tags start with
`"latest"`, the shortest tag is resolved instead). -/
theorem claim_C9_amended :
    image_util.find_best_tag ["latest", "sha-abc123"] = "sha-abc123" ∧
    image_util.find_best_tag ["latest"] = "latest" ∧
    (∀ l1 t l2, (∀ u ∈ l1, pyStartswith u "latest" = true) →
      pyStartswith t "latest" = false →
      image_util.find_best_tag (l1 ++ t :: l2) = t) := by
  refine ⟨rfl, rfl, ?_⟩
  intro l1 t l2 h1 h2
  have hl1 : (l1 ++ t :: l2).filter (fun u => !(pyStartswith u "latest")) =
      t :: l2.filter (fun u => !(pyStartswith u "latest")) := by
    rw [List.filter_append]
    have hnil : l1.filter (fun u => !(pyStartswith u "latest")) = [] := by
      rw [List.filter_eq_nil_iff]
      intro u hu
      simp [h1 u hu]
    rw [hnil, List.nil_append, List.filter_cons_of_pos]
    simp [h2]
  unfold image_util.find_best_tag
  rw [hl1]

/-- C9 amended, witnessed: with a leading `"latest"` tag, the first
non-latest-prefixed tag `"v1.2.3"` is resolved. -/
theorem claim_C9_amended_witness :
    image_util.find_best_tag (["latest"] ++ "v1.2.3" :: ["latest"]) = "v1.2.3" :=
  claim_C9_amended.2.2 ["latest"] "v1.2.3" ["latest"] (by decide) (by decide)

/-- C5: both snapshot writers are idempotent on their composite key.
Writing twice with the same key leaves the table of the first write; on a
fresh key exactly one row with the first-written values is stored; on a
conflicting key the table — in particular the existing row — is untouched.
Stated for `vulnerabilities_load.save_snapshot` (key `(org, repo,
timestamp)`) and `trivy_load.save_snapshot` (key `(org, repo, branch,
timestamp)`, row built from the snapshot plus `snapshot_date`). -/
theorem claim_C5_save_snapshot_idempotent :
    (∀ (tbl : List vulnerabilities_load.VulnRow) s s2,
      vulnerabilities_load.vulnKey s2 = vulnerabilities_load.vulnKey s →
      vulnerabilities_load.save_snapshot (vulnerabilities_load.save_snapshot tbl s) s2 =
        vulnerabilities_load.save_snapshot tbl s ∧
      ((¬ ∃ x ∈ tbl, vulnerabilities_load.vulnKey x = vulnerabilities_load.vulnKey s) →
        (vulnerabilities_load.save_snapshot tbl s).filter
          (fun x => decide (vulnerabilities_load.vulnKey x =
            vulnerabilities_load.vulnKey s)) = [s]) ∧
      ((∃ x ∈ tbl, vulnerabilities_load.vulnKey x = vulnerabilities_load.vulnKey s) →
        vulnerabilities_load.save_snapshot tbl s = tbl)) ∧
    (∀ (tbl : List trivy_load.TrivyRow) snap snap2 (d d2 : Int),
      trivy_load.trivyKey (trivy_load.rowOf snap2 d2) =
        trivy_load.trivyKey (trivy_load.rowOf snap d) →
      trivy_load.save_snapshot (trivy_load.save_snapshot tbl snap d) snap2 d2 =
        trivy_load.save_snapshot tbl snap d ∧
      ((¬ ∃ x ∈ tbl, trivy_load.trivyKey x =
          trivy_load.trivyKey (trivy_load.rowOf snap d)) →
        (trivy_load.save_snapshot tbl snap d).filter
          (fun x => decide (trivy_load.trivyKey x =
            trivy_load.trivyKey (trivy_load.rowOf snap d))) =
          [trivy_load.rowOf snap d]) ∧
      ((∃ x ∈ tbl, trivy_load.trivyKey x =
          trivy_load.trivyKey (trivy_load.rowOf snap d)) →
        trivy_load.save_snapshot tbl snap d = tbl)) := by
  constructor
  · intro tbl s s2 hk
    refine ⟨insert_ignore_second_conflict _ tbl s s2 hk, ?_, ?_⟩
    · exact insert_ignore_fresh_filter _ tbl s
    · exact insert_ignore_conflict _ tbl s
  · intro tbl snap snap2 d d2 hk
    refine ⟨insert_ignore_second_conflict _ tbl _ _ hk, ?_, ?_⟩
    · exact insert_ignore_fresh_filter _ tbl _
    · exact insert_ignore_conflict _ tbl _

/-- C5, witnessed: a double write of a concrete vulnerability row and a
concrete trivy snapshot onto an empty table stores exactly that one row,
and a conflicting second write changes nothing. -/
theorem claim_C5_save_snapshot_idempotent_witness :
    vulnerabilities_load.save_snapshot
        (vulnerabilities_load.save_snapshot [] ⟨"kbase", "auth2", 17, 1, 2, 3, 4⟩)
        ⟨"kbase", "auth2", 17, 9, 9, 9, 9⟩ =
      vulnerabilities_load.save_snapshot [] ⟨"kbase", "auth2", 17, 1, 2, 3, 4⟩ ∧
    trivy_load.save_snapshot
        (trivy_load.save_snapshot [] ⟨"kbase", "auth2", "main", ["latest"], 1, 2, 3, 4⟩ 17)
        ⟨"kbase", "auth2", "main", ["v2"], 9, 9, 9, 9⟩ 17 =
      trivy_load.save_snapshot [] ⟨"kbase", "auth2", "main", ["latest"], 1, 2, 3, 4⟩ 17 :=
  ⟨(claim_C5_save_snapshot_idempotent.1 []
      ⟨"kbase", "auth2", 17, 1, 2, 3, 4⟩ ⟨"kbase", "auth2", 17, 9, 9, 9, 9⟩ rfl).1,
   (claim_C5_save_snapshot_idempotent.2 []
      ⟨"kbase", "auth2", "main", ["latest"], 1, 2, 3, 4⟩
      ⟨"kbase", "auth2", "main", ["v2"], 9, 9, 9, 9⟩ 17 17 rfl).1⟩

/-- C7: upserting an existing `(org, repo)` metadata row overwrites the
descriptive fields with the new values, preserves `created_at`, advances
`updated_at` to `NOW()` exactly when type or a branch name differs, leaves
the row completely untouched on an identical upsert, and leaves every row
with a different key untouched. -/
theorem claim_C7_upsert_metadata :
    ∀ tbl org repo ty mb db now (r : repo_metadata.MetaRow),
      r ∈ tbl → r.org_user = org → r.repo = repo →
      ((∃ r2 ∈ repo_metadata.upsert_one tbl org repo ty mb db now,
        r2.org_user = org ∧ r2.repo = repo ∧ r2.type = ty ∧ r2.main_branch = mb ∧
        r2.dev_branch = db ∧ r2.created_at = r.created_at ∧
        ((r.type = ty ∧ r.main_branch = mb ∧ r.dev_branch = db) → r2 = r) ∧
        (¬(r.type = ty ∧ r.main_branch = mb ∧ r.dev_branch = db) →
          r2.updated_at = now)) ∧
       (∀ x ∈ tbl, ¬(x.org_user = org ∧ x.repo = repo) →
         x ∈ repo_metadata.upsert_one tbl org repo ty mb db now)) := by
  intro tbl org repo ty mb db now r hr horg hrepo
  have hkey : (r.org_user == org && r.repo == repo) = true := by
    simp [horg, hrepo]
  have hany : tbl.any (fun x => x.org_user == org && x.repo == repo) = true :=
    List.any_eq_true.mpr ⟨r, hr, hkey⟩
  unfold repo_metadata.upsert_one
  rw [if_pos hany]
  constructor
  · by_cases hch : r.type = ty ∧ r.main_branch = mb ∧ r.dev_branch = db
    · obtain ⟨h1, h2, h3⟩ := hch
      have hfr : repo_metadata.update_row org repo ty mb db now r = r := by
        unfold repo_metadata.update_row
        rw [if_pos hkey, if_neg (by simp [h1, h2, h3]), ← h1, ← h2, ← h3]
      refine ⟨repo_metadata.update_row org repo ty mb db now r,
        List.mem_map_of_mem _ hr, ?_⟩
      rw [hfr]
      exact ⟨horg, hrepo, h1, h2, h3, rfl, fun _ => rfl,
        fun hne => absurd ⟨h1, h2, h3⟩ hne⟩
    · have hfr : repo_metadata.update_row org repo ty mb db now r =
          { r with
            type := ty
            main_branch := mb
            dev_branch := db
            updated_at := now } := by
        unfold repo_metadata.update_row
        rw [if_pos hkey, if_pos (by tauto)]
      refine ⟨repo_metadata.update_row org repo ty mb db now r,
        List.mem_map_of_mem _ hr, ?_⟩
      rw [hfr]
      exact ⟨horg, hrepo, rfl, rfl, rfl, rfl, fun hc => absurd hc hch,
        fun _ => rfl⟩
  · intro x hx hne
    have hkx : (x.org_user == org && x.repo == repo) = false := by
      rcases not_and_or.mp hne with h | h <;> simp [h]
    have hfx : repo_metadata.update_row org repo ty mb db now x = x := by
      unfold repo_metadata.update_row
      rw [hkx]
      simp
    rw [← hfx]
    exact List.mem_map_of_mem _ hx

/-- C7, witnessed: a no-op upsert of an existing row keeps `updated_at` 7,
while the frame clause keeps an unrelated row in the table. -/
theorem claim_C7_upsert_metadata_witness :
    (∃ r2 ∈ repo_metadata.upsert_one
        [⟨"kbase", "auth2", "core", "main", "develop", 3, 7⟩,
         ⟨"kbase", "other", "support", "main", "develop", 1, 2⟩]
        "kbase" "auth2" "core" "main" "develop" 50,
      r2.org_user = "kbase" ∧ r2.repo = "auth2" ∧ r2.type = "core" ∧
      r2.main_branch = "main" ∧ r2.dev_branch = "develop" ∧ r2.created_at = 3 ∧
      (("core" = "core" ∧ "main" = "main" ∧ "develop" = "develop") →
        r2 = ⟨"kbase", "auth2", "core", "main", "develop", 3, 7⟩) ∧
      (¬("core" = "core" ∧ "main" = "main" ∧ "develop" = "develop") →
        r2.updated_at = 50)) ∧
    (∀ x ∈ [(⟨"kbase", "auth2", "core", "main", "develop", 3, 7⟩ :
          repo_metadata.MetaRow),
        ⟨"kbase", "other", "support", "main", "develop", 1, 2⟩],
      ¬(x.org_user = "kbase" ∧ x.repo = "auth2") →
      x ∈ repo_metadata.upsert_one
        [⟨"kbase", "auth2", "core", "main", "develop", 3, 7⟩,
         ⟨"kbase", "other", "support", "main", "develop", 1, 2⟩]
        "kbase" "auth2" "core" "main" "develop" 50) :=
  claim_C7_upsert_metadata _ "kbase" "auth2" "core" "main" "develop" 50
    ⟨"kbase", "auth2", "core", "main", "develop", 3, 7⟩
    (by decide) rfl rfl

/-- C8: the grouped-update pattern `with N updates` in a PR title yields
dependency count N (3 for the spec's grouped example), a title without the
pattern yields exactly 1 (the spec's single example), and the snapshot
aggregation classifies a multi-dependency PR as grouped and a
single-dependency PR as single. -/
theorem claim_C8_title_parsing :
    dependabot.count_dependencies_in_pr
      "Bump the npm-dependencies group with 3 updates" = 3 ∧
    dependabot.count_dependencies_in_pr "Bump pytest from 7.0.0 to 7.1.0" = 1 ∧
    (∀ title n, dependabot.searchWithUpdates title.data = some n →
      dependabot.count_dependencies_in_pr title = n) ∧
    (∀ title, dependabot.searchWithUpdates title.data = none →
      dependabot.count_dependencies_in_pr title = 1) ∧
    dependabot.get_dependabot_snapshot "kbase" "auth2"
      [⟨"dependabot[bot]", "Bump the npm-dependencies group with 3 updates"⟩,
       ⟨"dependabot[bot]", "Bump pytest from 7.0.0 to 7.1.0"⟩] =
      ⟨"kbase", "auth2", 2, 4, 1, 1⟩ := by
  refine ⟨by decide, by decide, ?_, ?_, by decide⟩
  · intro title n h
    unfold dependabot.count_dependencies_in_pr
    rw [h]
  · intro title h
    unfold dependabot.count_dependencies_in_pr
    rw [h]

/-- C8, witnessed: a twelve-update grouped title parses to 12 and a
pattern-free title parses to 1. -/
theorem claim_C8_title_parsing_witness :
    dependabot.count_dependencies_in_pr "Update deps with 12 updates" = 12 ∧
    dependabot.count_dependencies_in_pr "Pin versions" = 1 :=
  ⟨claim_C8_title_parsing.2.2.1 "Update deps with 12 updates" 12 (by decide),
   claim_C8_title_parsing.2.2.2.1 "Pin versions" (by decide)⟩

/-- C4 counterexample: the early exit in `get_coverage_history` uses a
strict `timestamp < since` comparison, so a fetched record timestamped
exactly at the stored maximum T is *not* excluded: it is handed to
`save_coverage` and, having a new commit id, is written.  Here T = 5 and
the record `c2` at timestamp 5 is inserted. -/
theorem claim_C4_counterexample :
    codecov_load.get_last_sync_timestamp
      [⟨"o", "r", "b", "c1", 5, 80⟩] "o" "r" none = some 5 ∧
    codecov_load.sync_coverage_data [⟨"o", "r", "b", "c1", 5, 80⟩] "o" "r" none false
        [[⟨true, "complete", "b", 5, "c2", 81⟩]] =
      [⟨"o", "r", "b", "c1", 5, 80⟩, ⟨"o", "r", "b", "c2", 5, 81⟩] :=
  ⟨rfl, by decide⟩

/-- C4 amended: in a non-forced sync with stored maximum timestamp T,
every row written is either an existing row or carries a timestamp ≥ T —
records strictly before T are excluded (the early exit stops fetching at
the first such record), while records at exactly T may be re-fetched and
re-written. -/
theorem claim_C4_amended :
    ∀ tbl org repo branches pages T,
      codecov_load.get_last_sync_timestamp tbl org repo branches = some T →
      ∀ row ∈ codecov_load.sync_coverage_data tbl org repo branches false pages,
        row ∈ tbl ∨ T ≤ row.timestamp := by
  intro tbl org repo branches pages T hT row hrow
  simp only [codecov_load.sync_coverage_data, Bool.false_eq_true, if_false, hT,
    codecov_load.save_coverage] at hrow
  rcases save_coverage_foldl_mem _ tbl row hrow with h | h
  · exact Or.inl h
  · right
    obtain ⟨bc, hbc, heq⟩ := List.mem_map.mp h
    have hb := get_coverage_history_since_bound org repo branches T pages bc hbc
    rw [← heq]
    simpa using hb

/-- C4 amended, witnessed: with stored maximum 5, a fetched record at
timestamp 7 yields a row that is new (so the second disjunct, 5 ≤ 7, is
what holds). -/
theorem claim_C4_amended_witness :
    ((⟨"o", "r", "b", "c2", 7, 81⟩ : codecov_load.CoverageRow) ∈
        [(⟨"o", "r", "b", "c1", 5, 80⟩ : codecov_load.CoverageRow)]) ∨
      (5 : Int) ≤ (7 : Int) :=
  claim_C4_amended [⟨"o", "r", "b", "c1", 5, 80⟩] "o" "r" none
    [[⟨true, "complete", "b", 7, "c2", 81⟩]] 5 rfl
    ⟨"o", "r", "b", "c2", 7, 81⟩ (by decide)

/-- C6: when a repository's collection raises, `process_repos` re-raises
after logging — the loop's outcome is exactly the failing repo's exception,
the executed-step trace stops with the failing repository and nothing from
the repositories after it runs; and the scheduler's `_run` replaces the
single last-run result, independently of its previous value, with the
completion time and the failure description (`none` on success). -/
theorem claim_C6_failure_policy :
    (∀ env pre (rc : load_all.RepoConfig) post e,
      (load_all.process_loop env pre).2 = none →
      load_all.resolve_workflow_filter rc.test_workflows ≠ none →
      (load_all.run_steps env rc load_all.step_order).2 = some e →
      load_all.process_loop env (pre ++ rc :: post) =
        ((load_all.process_loop env pre).1 ++
          (load_all.run_steps env rc load_all.step_order).1, some e)) ∧
    (∀ prev prev2 outcome now,
      scheduler.RepoETLScheduler_run prev outcome now =
        scheduler.RepoETLScheduler_run prev2 outcome now ∧
      (scheduler.RepoETLScheduler_run prev outcome now).time_complete = some now ∧
      (scheduler.RepoETLScheduler_run prev outcome now).exception = outcome) := by
  constructor
  · intro env pre rc post e hpre hres herr
    rw [process_loop_append env pre (rc :: post) hpre]
    obtain ⟨w, hw⟩ := Option.ne_none_iff_exists.mp hres
    rcases hrs : load_all.run_steps env rc load_all.step_order with ⟨tr, err⟩
    rw [hrs] at herr
    simp only at herr
    subst herr
    simp [load_all.process_loop, ← hw, hrs]
  · intro prev prev2 outcome now
    cases outcome <;> exact ⟨rfl, rfl, rfl⟩

/-- C6, witnessed: a repo whose coverage step raises `"boom"` ends the loop
with that exception and an empty remainder; `_run` records the same result
from any previous state. -/
theorem claim_C6_failure_policy_witness :
    load_all.process_loop
        (fun _ s => match s with
          | load_all.Step.coverage => .error "boom"
          | _ => .ok ())
        ([] ++ (⟨"kbase", "auth2", "main", "develop", none⟩ :
            load_all.RepoConfig) :: [⟨"kbase", "other", "main", "develop", none⟩]) =
      ([("kbase", "auth2", load_all.Step.coverage)], some "boom") ∧
    scheduler.RepoETLScheduler_run ⟨some 1, some "old"⟩ (some "boom") 2 =
      scheduler.RepoETLScheduler_run ⟨none, none⟩ (some "boom") 2 :=
  ⟨(claim_C6_failure_policy.1
      (fun _ s => match s with
        | load_all.Step.coverage => .error "boom"
        | _ => .ok ())
      [] ⟨"kbase", "auth2", "main", "develop", none⟩
      [⟨"kbase", "other", "main", "develop", none⟩] "boom"
      rfl (by decide) rfl).trans (by decide),
   (claim_C6_failure_policy.2 ⟨some 1, some "old"⟩ ⟨none, none⟩ (some "boom") 2).1⟩

/-- C10 (implicit): a repo entry whose `test_workflows` is neither a string
nor a list resolves to no workflow filter — the only such case — and is
skipped entirely by the loop: none of its five steps run, no error is
raised, and the run continues with the remaining repositories exactly as if
the entry were absent (both at the loop level and through `process_repos`,
provided the rest of the list is nonempty so the empty-config check
agrees). -/
theorem claim_C10_invalid_test_workflows_skip :
    (∀ tw, load_all.resolve_workflow_filter tw = none ↔
      tw = some load_all.TWVal.other) ∧
    (∀ env pre post (rc : load_all.RepoConfig),
      rc.test_workflows = some load_all.TWVal.other →
      load_all.process_loop env (pre ++ rc :: post) =
        load_all.process_loop env (pre ++ post)) ∧
    (∀ env pre post (r : load_all.RepoConfigIn),
      r.test_workflows = some load_all.TWVal.other →
      pre ++ post ≠ [] →
      load_all.process_repos env (pre ++ r :: post) =
        load_all.process_repos env (pre ++ post)) := by
  refine ⟨?_, ?_, ?_⟩
  · intro tw
    cases tw with
    | none => simp [load_all.resolve_workflow_filter]
    | some v => cases v <;> simp [load_all.resolve_workflow_filter]
  · intro env pre post rc hrc
    exact process_loop_skip env pre post rc hrc
  · intro env pre post r hr hne
    unfold load_all.process_repos
    have hne1 : (((pre ++ r :: post).map load_all.normalize).isEmpty) = false := by
      simp
    have hne2 : (((pre ++ post).map load_all.normalize).isEmpty) = false := by
      cases hpp : pre ++ post with
      | nil => exact absurd hpp hne
      | cons a l => simp [hpp]
    simp only [hne1, hne2, Bool.false_eq_true, if_false]
    rw [List.map_append, List.map_cons, List.map_append]
    exact process_loop_skip env (pre.map load_all.normalize)
      (post.map load_all.normalize) (load_all.normalize r) hr

/-- C10, witnessed: a middle entry with an invalid `test_workflows` value
is dropped from the run without affecting the repositories around it. -/
theorem claim_C10_invalid_test_workflows_skip_witness :
    load_all.process_repos (fun _ _ => .ok ())
        ([⟨"kbase", "a", none, none, none⟩] ++
          (⟨"kbase", "bad", none, none, some load_all.TWVal.other⟩ :
            load_all.RepoConfigIn) :: [⟨"kbase", "c", none, none, none⟩]) =
      load_all.process_repos (fun _ _ => .ok ())
        ([⟨"kbase", "a", none, none, none⟩] ++ [⟨"kbase", "c", none, none, none⟩]) :=
  claim_C10_invalid_test_workflows_skip.2.2 (fun _ _ => .ok ())
    [⟨"kbase", "a", none, none, none⟩] [⟨"kbase", "c", none, none, none⟩]
    ⟨"kbase", "bad", none, none, some load_all.TWVal.other⟩ rfl (by decide)

end SecDash

